import Mathlib

/-!
Verification of the timeline/segment model and the chroma-key engine of the
ai-animator repository, as a shallow embedding in Lean 4.

Numbers that JavaScript stores as IEEE doubles are modelled as exact
rationals (for the timeline arithmetic) or reals (for the chroma-key
pipeline, whose color distance is an irrational square root).
JavaScript Math.round(x) equals floor(x + 1/2), which is exactly the
Mathlib round on these carriers.

Definitions come first, theorems afterwards.
-/

namespace AiAnimator

/-! ## Rounding helper

Every drag commit in src/components/TimelineEditor.tsx is written as
Math.round(value * 10) / 10 (0.1-second granularity). -/

/-- Math.round(x * 10) / 10, the 0.1-second commit rounding used by
handleSegmentDragMove. -/
def roundTenth (x : ℚ) : ℚ := ((round (x * 10) : ℤ) : ℚ) / 10

/-! ## Segment model (src/types.ts)

Only the fields the verified operations read or write are embedded:
id, timestamp, duration, formattedTime.  The remaining fields (topic,
description, prompt, animationPrompt, status, imageUrl, videoUrl, error,
chromaKey) are carried through every operation below unchanged, so they
are omitted from the record. -/

structure Segment where
  id : String
  timestamp : ℚ
  duration : ℚ
  formattedTime : String
deriving DecidableEq, Repr

/-! ## formatTime (src/utils/videoUtils.ts lines 110-114)

formatTime(seconds) is floor(seconds/60), a colon, and the two-padded
floor(seconds % 60), where % is the JavaScript remainder (sign of the
dividend, i.e. truncated division) and padStart(2, "0") left-pads to
length two. -/

/-- JavaScript truncation toward zero, as used by the % remainder. -/
def jsTrunc (q : ℚ) : ℤ := if 0 ≤ q then ⌊q⌋ else ⌈q⌉

/-- The JavaScript remainder a % b (sign of the dividend). -/
def jsMod (a b : ℚ) : ℚ := a - b * (jsTrunc (a / b) : ℚ)

/-- String.prototype.padStart(n, c): left-pad to length n with c. -/
def jsPadStart (s : String) (n : ℕ) (c : Char) : String :=
  if n ≤ s.length then s
  else String.mk (List.replicate (n - s.length) c) ++ s

/-- formatTime from src/utils/videoUtils.ts: minutes, a colon, and the
zero-padded seconds remainder. -/
def formatTime (seconds : ℚ) : String :=
  let mins : ℤ := ⌊seconds / 60⌋
  let secs : ℤ := ⌊jsMod seconds 60⌋
  toString mins ++ ":" ++ jsPadStart (toString secs) 2 '0'

/-! ## Segment collection operations (src/App.tsx)

handleUpdateSegmentDuration (lines 597-605) maps over the segments and
overwrites the matching duration with newDuration as passed — there
is no clamping in the handler.

handleUpdateSegmentTimestamp (lines 607-618) maps over the segments,
overwrites the matching timestamp and formattedTime, then sorts the
collection with Array.prototype.sort on the comparator
(a, b) => a.timestamp - b.timestamp.  ECMAScript sort is stable, so it
is embedded as insertion sort on the non-strict timestamp order, which
is stable. -/

/-- The comparator order of the timestamp sort. -/
def segLE (a b : Segment) : Prop := a.timestamp ≤ b.timestamp

instance : DecidableRel segLE := fun a b => inferInstanceAs (Decidable (a.timestamp ≤ b.timestamp))

instance : IsTotal Segment segLE := ⟨fun a b => le_total a.timestamp b.timestamp⟩

instance : IsTrans Segment segLE := ⟨fun _ _ _ h1 h2 => le_trans h1 h2⟩

instance : IsRefl Segment segLE := ⟨fun a => le_refl a.timestamp⟩

/-- handleUpdateSegmentDuration from src/App.tsx: store newDuration on the
matching segment, with no clamping. -/
def handleUpdateSegmentDuration (segments : List Segment) (segmentId : String)
    (newDuration : ℚ) : List Segment :=
  segments.map fun s => if s.id = segmentId then { s with duration := newDuration } else s

/-- The per-segment update performed by handleUpdateSegmentTimestamp before
the sort: the matching segment gets the new timestamp and the re-formatted
label; all others are unchanged. -/
def updateTimestampField (segmentId : String) (newTimestamp : ℚ) (s : Segment) : Segment :=
  if s.id = segmentId then
    { s with timestamp := newTimestamp, formattedTime := formatTime newTimestamp }
  else s

/-- handleUpdateSegmentTimestamp from src/App.tsx: store newTimestamp and
the re-formatted label on the matching segment (no clamping), then stably
sort the whole collection by timestamp ascending. -/
def handleUpdateSegmentTimestamp (segments : List Segment) (segmentId : String)
    (newTimestamp : ℚ) : List Segment :=
  List.insertionSort segLE (segments.map (updateTimestampField segmentId newTimestamp))

/-! ## Duration plus and minus buttons (src/components/TimelineEditor.tsx lines 906-926)

The sidebar buttons commit Math.max(1, (segment.duration || 5) - 1) and
Math.min(30, (segment.duration || 5) + 1); the argument d below stands for
segment.duration || 5. -/

/-- The committed value of the decrease-duration button. -/
def durationMinusButton (d : ℚ) : ℚ := max 1 (d - 1)

/-- The committed value of the increase-duration button. -/
def durationPlusButton (d : ℚ) : ℚ := min 30 (d + 1)

/-! ## Segment drag (src/components/TimelineEditor.tsx lines 311-342)

handleSegmentDragMove receives the drag state captured at drag start
(initialTimestamp, initialDuration = segment.duration || 5), the total
video duration, and deltaTime = deltaX / trackWidth * totalDuration.  It
commits a rounded timestamp and/or duration depending on the mode.  The
result below is the pair (committed timestamp, committed duration), with
none for a value the mode does not commit. -/

inductive DragMode where
  | move
  | resizeStart
  | resizeEnd
deriving DecidableEq, Repr

/-- handleSegmentDragMove from src/components/TimelineEditor.tsx, expressed
on the drag state.  In move mode the code reads segment.duration || 5 from
current state, which during a drag equals the captured initialDuration
(move mode never commits a duration). -/
def handleSegmentDragMove (mode : DragMode) (initialTimestamp initialDuration
    totalDuration deltaTime : ℚ) : Option ℚ × Option ℚ :=
  match mode with
  | DragMode.move =>
      let newTimestamp := max 0 (min (totalDuration - initialDuration)
        (initialTimestamp + deltaTime))
      (some (roundTenth newTimestamp), none)
  | DragMode.resizeStart =>
      let maxDelta := initialDuration - 1
      let clampedDelta := max (-initialTimestamp) (min maxDelta deltaTime)
      let newTimestamp := initialTimestamp + clampedDelta
      let newDuration := initialDuration - clampedDelta
      (some (roundTenth newTimestamp), some (roundTenth newDuration))
  | DragMode.resizeEnd =>
      let newDuration := max 1 (min (totalDuration - initialTimestamp)
        (initialDuration + deltaTime))
      (none, some (roundTenth newDuration))

/-! ## Active segment resolution (src/components/TimelineEditor.tsx lines 153-163)

findActiveSegment walks analysis.segments in stored order and returns the
first segment with time >= segment.timestamp and
time < segment.timestamp + (segment.duration || 5); null when none matches
(the null-analysis guard also returns null and is outside this model). -/

/-- segment.duration || 5: a zero (in the original also a missing)
duration is replaced by 5. -/
def effectiveDuration (s : Segment) : ℚ := if s.duration = 0 then 5 else s.duration

/-- findActiveSegment from src/components/TimelineEditor.tsx. -/
def findActiveSegment (segments : List Segment) (time : ℚ) : Option Segment :=
  segments.find? fun s =>
    decide (s.timestamp ≤ time) && decide (time < s.timestamp + effectiveDuration s)

/-! ## Hex colors (src/utils/videoUtils.ts lines 320-334)

rgbToHex maps each component through Number.prototype.toString(16) (which
yields lowercase hex digits) padded to two characters, joins them and
prepends the hash.  hexToRgb matches the case-insensitive pattern of an
optional hash followed by exactly six hex characters, parses the three
two-character groups in base 16, and falls back to the default green
(0, 255, 0) when the pattern does not match. -/

/-- A character the hex pattern accepts: a digit or a letter a-f of either
case. -/
def isHexDigitChar (c : Char) : Bool :=
  c.isDigit || ('a' ≤ c && c ≤ 'f') || ('A' ≤ c && c ≤ 'F')

/-- The base-16 value of a hex character. -/
def hexDigitVal (c : Char) : ℕ :=
  if c.isDigit then c.toNat - 48
  else if 'a' ≤ c then c.toNat - 87
  else c.toNat - 55

/-- One color component rendered by x.toString(16).padStart(2, "0").
Nat.toDigits 16 produces the same lowercase digits as toString(16). -/
def componentToHex (x : ℕ) : String :=
  jsPadStart (String.mk (Nat.toDigits 16 x)) 2 '0'

/-- rgbToHex from src/utils/videoUtils.ts. -/
def rgbToHex (r g b : ℕ) : String :=
  "#" ++ String.join ([r, g, b].map componentToHex)

/-- hexToRgb from src/utils/videoUtils.ts, on the character data of the
string. -/
def hexToRgb (hex : String) : ℕ × ℕ × ℕ :=
  let cs := hex.data
  let body := if cs.head? = some '#' then cs.tail else cs
  match body with
  | [c1, c2, c3, c4, c5, c6] =>
      if isHexDigitChar c1 && isHexDigitChar c2 && isHexDigitChar c3 &&
          isHexDigitChar c4 && isHexDigitChar c5 && isHexDigitChar c6 then
        (16 * hexDigitVal c1 + hexDigitVal c2,
         16 * hexDigitVal c3 + hexDigitVal c4,
         16 * hexDigitVal c5 + hexDigitVal c6)
      else (0, 255, 0)
  | _ => (0, 255, 0)

/-! ## Chroma key (src/utils/videoUtils.ts lines 337-392)

The pixel loop reads the byte channels r, g, b (naturals 0-255 in a
Uint8ClampedArray), computes the Euclidean color distance to the key
color, and writes an alpha and possibly a spill-suppressed green.  The
written values are modelled as the real numbers the JavaScript
expressions denote, before the byte quantization of the backing array.
Math.round is Mathlib round; the literal 0.7 is 7/10. -/

/-- An input pixel: the four bytes read from the image data. -/
structure Pixel where
  r : ℕ
  g : ℕ
  b : ℕ
  a : ℕ
deriving DecidableEq, Repr

/-- An output pixel: the real values written back by the loop body. -/
structure PixelOut where
  r : ℝ
  g : ℝ
  b : ℝ
  a : ℝ

/-- The chroma-key settings record from src/types.ts, with the numeric
sliders as reals. -/
structure ChromaKeySettings where
  enabled : Bool
  keyColor : String
  tolerance : ℝ
  spillSuppression : ℝ
  edgeSoftness : ℝ

/-- colorDistance from src/utils/videoUtils.ts: Euclidean distance in RGB
space. -/
noncomputable def colorDistance (r1 g1 b1 r2 g2 b2 : ℝ) : ℝ :=
  Real.sqrt ((r1 - r2) ^ 2 + (g1 - g2) ^ 2 + (b1 - b2) ^ 2)

open scoped Classical in
/-- The alpha decision of the applyChromaKey loop body: within tolerance
the pixel is keyed (softness formula, or hard 0 without softness), inside
the feathering band the alpha blends up, otherwise the alpha byte is left
as it was. -/
noncomputable def chromaAlpha (toleranceThreshold softnessRange distance
    previousAlpha : ℝ) : ℝ :=
  if distance < toleranceThreshold then
    if softnessRange > 0 then
      min 255 (max 0 (distance / toleranceThreshold * 255 * (1 + softnessRange / 50)))
    else 0
  else if softnessRange > 0 ∧ distance < toleranceThreshold + softnessRange then
    ((round ((distance - toleranceThreshold) / softnessRange * 255) : ℤ) : ℝ)
  else previousAlpha

open scoped Classical in
/-- The spill-suppression step of the applyChromaKey loop body: on a
visible pixel with green excess, the green channel is rounded down
proportionally; alphaOut is the alpha already written by the alpha
decision. -/
noncomputable def spillGreen (spillStrength r g b alphaOut : ℝ) : ℝ :=
  if spillStrength > 0 ∧ alphaOut > 0 ∧ g - max r b > 0 then
    ((round (g - (g - max r b) * spillStrength * (7 / 10)) : ℤ) : ℝ)
  else g

/-- The loop body of applyChromaKey for one pixel: the alpha decision
followed by spill suppression on the possibly-updated alpha. -/
noncomputable def applyChromaKeyPixel (settings : ChromaKeySettings) (p : Pixel) : PixelOut :=
  let keyColor := hexToRgb settings.keyColor
  let toleranceThreshold : ℝ := settings.tolerance / 100 * 255
  let softnessRange : ℝ := settings.edgeSoftness / 100 * 100
  let spillStrength : ℝ := settings.spillSuppression / 100
  let distance := colorDistance p.r p.g p.b keyColor.1 keyColor.2.1 keyColor.2.2
  let alphaOut := chromaAlpha toleranceThreshold softnessRange distance p.a
  ⟨p.r, spillGreen spillStrength p.r p.g p.b alphaOut, p.b, alphaOut⟩

/-- applyChromaKey from src/utils/videoUtils.ts on a whole pixel buffer:
the identity when the settings are disabled, otherwise the loop body on
every pixel. -/
noncomputable def applyChromaKey (settings : ChromaKeySettings) (data : List Pixel) :
    List PixelOut :=
  if settings.enabled then data.map (applyChromaKeyPixel settings)
  else data.map fun p => ⟨p.r, p.g, p.b, p.a⟩

/-! ## Concrete values used by the examples below -/

/-- First segment of the active-segment scenario. -/
def exSeg1 : Segment := ⟨"s1", 0, 5, "0:00"⟩

/-- Second segment of the scenario, active at time 7. -/
def exSeg2 : Segment := ⟨"s2", 5, 5, "0:05"⟩

/-- Third segment of the scenario, starting after a gap. -/
def exSeg3 : Segment := ⟨"s3", 12, 3, "0:12"⟩

/-- A segment whose stored duration is 0, exercising the duration-or-5
default of findActiveSegment. -/
def zeroDurSeg : Segment := ⟨"z", 0, 0, "0:00"⟩

/-! ## Helper lemmas -/

/-- Mathlib round is monotone on the rationals (JS Math.round is
floor(x + 1/2), which is exactly round_eq). -/
theorem round_mono_rat {x y : ℚ} (h : x ≤ y) : round x ≤ round y := by
  rw [round_eq, round_eq]
  exact Int.floor_mono (by linarith)

/-- If b is a multiple of 1/10, rounding a value below b to the 0.1 grid
stays below b. -/
theorem roundTenth_le {x b : ℚ} (hx : x ≤ b) (hb : ∃ k : ℤ, b * 10 = (k : ℚ)) :
    roundTenth x ≤ b := by
  obtain ⟨k, hk⟩ := hb
  have h1 : round (x * 10) ≤ round (b * 10) := round_mono_rat (by nlinarith)
  have h2 : round (b * 10) = k := by rw [hk, round_intCast]
  have h3 : ((round (x * 10) : ℤ) : ℚ) ≤ b * 10 := by
    rw [hk]; exact_mod_cast h1.trans_eq h2
  unfold roundTenth
  linarith

/-- If b is a multiple of 1/10, rounding a value above b to the 0.1 grid
stays above b. -/
theorem le_roundTenth {x b : ℚ} (hx : b ≤ x) (hb : ∃ k : ℤ, b * 10 = (k : ℚ)) :
    b ≤ roundTenth x := by
  obtain ⟨k, hk⟩ := hb
  have h1 : round (b * 10) ≤ round (x * 10) := round_mono_rat (by nlinarith)
  have h2 : round (b * 10) = k := by rw [hk, round_intCast]
  have h3 : b * 10 ≤ ((round (x * 10) : ℤ) : ℚ) := by
    rw [hk]; exact_mod_cast h2.symm.trans_le h1
  unfold roundTenth
  linarith

/-- find? returns the first element satisfying the predicate: every
earlier element fails it. -/
theorem find?_first {α : Type} (p : α → Bool) :
    ∀ (l : List α) (a : α), l.find? p = some a →
      ∃ l1 l2, l = l1 ++ a :: l2 ∧ p a = true ∧ ∀ b ∈ l1, p b = false := by
  intro l
  induction l with
  | nil => intro a h; simp [List.find?] at h
  | cons c t ih =>
    intro a h
    rw [List.find?_cons] at h
    cases hc : p c with
    | true =>
      rw [hc] at h
      obtain rfl : c = a := by injection h
      exact ⟨[], t, by simp, hc, by simp⟩
    | false =>
      rw [hc] at h
      obtain ⟨l1, l2, rfl, hpa, hprev⟩ := ih a h
      refine ⟨c :: l1, l2, by simp, hpa, ?_⟩
      intro b hb
      rcases List.mem_cons.mp hb with rfl | hb
      · exact hc
      · exact hprev b hb

/-! ## Claim C1: drag clamping after the 0.1-second rounding -/

/-- C1 counterexample: the claim fails as stated.  On a timeline of total
duration 59.96 (not a multiple of 0.1), a resize-end drag of a segment
with timestamp 10 and duration 5 (a state satisfying every stated
precondition) by +100 seconds clamps the pre-rounding duration to
49.96, but the 0.1-second rounding commits 50, and 10 + 50 exceeds the
total duration. -/
theorem drag_clamp_counterexample :
    (0 : ℚ) ≤ 10 ∧ (1 : ℚ) ≤ 5 ∧ (10 : ℚ) + 5 ≤ 1499 / 25 ∧
    (handleSegmentDragMove DragMode.resizeEnd 10 5 (1499 / 25) 100).2 = some 50 ∧
    ¬((10 : ℚ) + 50 ≤ 1499 / 25) := by
  refine ⟨by norm_num, by norm_num, by norm_num, ?_, by norm_num⟩
  simp only [handleSegmentDragMove, roundTenth, round_eq]
  norm_num [max_def, min_def]

/-- C1 amended: when the initial timestamp, the initial duration and the
total duration are multiples of 0.1 (as every drag-committed value is),
the committed values satisfy the claimed bounds in all three modes: a
move commits a timestamp in [0, totalDuration - duration]; a
resize-start commits a timestamp >= 0 and a duration >= 1; a resize-end
commits a duration that keeps timestamp + duration <= totalDuration. -/
theorem drag_clamp_amended (ts dur total δ : ℚ)
    (hts : ∃ k : ℤ, ts * 10 = (k : ℚ)) (hdur : ∃ k : ℤ, dur * 10 = (k : ℚ))
    (htotal : ∃ k : ℤ, total * 10 = (k : ℚ))
    (h0 : 0 ≤ ts) (h1 : 1 ≤ dur) (h2 : ts + dur ≤ total) :
    (∀ c, (handleSegmentDragMove DragMode.move ts dur total δ).1 = some c →
      0 ≤ c ∧ c + dur ≤ total) ∧
    (∀ cts cdur,
      handleSegmentDragMove DragMode.resizeStart ts dur total δ = (some cts, some cdur) →
      0 ≤ cts ∧ 1 ≤ cdur) ∧
    (∀ c, (handleSegmentDragMove DragMode.resizeEnd ts dur total δ).2 = some c →
      ts + c ≤ total) := by
  obtain ⟨kt, hkt⟩ := hts
  obtain ⟨kd, hkd⟩ := hdur
  obtain ⟨kT, hkT⟩ := htotal
  refine ⟨?_, ?_, ?_⟩
  · intro c hc
    simp only [handleSegmentDragMove] at hc
    obtain rfl : roundTenth (max 0 (min (total - dur) (ts + δ))) = c := by
      simpa using hc
    have hbound : max 0 (min (total - dur) (ts + δ)) ≤ total - dur :=
      max_le (by linarith) (min_le_left _ _)
    have hle : roundTenth (max 0 (min (total - dur) (ts + δ))) ≤ total - dur :=
      roundTenth_le hbound ⟨kT - kd, by push_cast [← hkT, ← hkd]; ring⟩
    have hge : (0 : ℚ) ≤ roundTenth (max 0 (min (total - dur) (ts + δ))) :=
      le_roundTenth (le_max_left _ _) ⟨0, by norm_num⟩
    exact ⟨hge, by linarith⟩
  · intro cts cdur hc
    simp only [handleSegmentDragMove, Prod.mk.injEq, Option.some.injEq] at hc
    obtain ⟨rfl, rfl⟩ := hc
    set cd := max (-ts) (min (dur - 1) δ) with hcd
    have hcd_lo : -ts ≤ cd := le_max_left _ _
    have hcd_hi : cd ≤ dur - 1 :=
      max_le (by linarith) (min_le_left _ _)
    constructor
    · exact le_roundTenth (by linarith) ⟨0, by norm_num⟩
    · exact le_roundTenth (by linarith) ⟨10, by norm_num⟩
  · intro c hc
    simp only [handleSegmentDragMove] at hc
    obtain rfl : roundTenth (max 1 (min (total - ts) (dur + δ))) = c := by
      simpa using hc
    have hbound : max 1 (min (total - ts) (dur + δ)) ≤ total - ts :=
      max_le (by linarith) (min_le_left _ _)
    have hle : roundTenth (max 1 (min (total - ts) (dur + δ))) ≤ total - ts :=
      roundTenth_le hbound ⟨kT - kt, by push_cast [← hkT, ← hkt]; ring⟩
    linarith

/-- C1 amended, witnessed at the concrete drag of the counterexample but
on the 0.1-granular total duration 60: the committed resize-end duration
50 keeps 10 + 50 within 60. -/
theorem drag_clamp_amended_witness :
    (handleSegmentDragMove DragMode.resizeEnd 10 5 60 100).2 = some 50 ∧
    (10 : ℚ) + 50 ≤ 60 := by
  have h := (drag_clamp_amended 10 5 60 100 ⟨100, by norm_num⟩ ⟨50, by norm_num⟩
    ⟨600, by norm_num⟩ (by norm_num) (by norm_num) (by norm_num)).2.2
  have he : (handleSegmentDragMove DragMode.resizeEnd 10 5 60 100).2 = some 50 := by
    simp only [handleSegmentDragMove, roundTenth, round_eq]
    norm_num [max_def, min_def]
  exact ⟨he, h 50 he⟩

/-! ## Claim C2: the resize-end scenario of the spec -/

/-- C2 counterexample: on the spec scenario (timestamp 10, duration 5,
total 60, delta +20 seconds) the code commits duration 25, not the 50
the claim states: the clamp bound 50 is not reached by a +20 second
drag. -/
theorem resize_end_scenario_counterexample :
    (handleSegmentDragMove DragMode.resizeEnd 10 5 60 20).2 = some 25 ∧
    (handleSegmentDragMove DragMode.resizeEnd 10 5 60 20).2 ≠ some 50 := by
  have h : (handleSegmentDragMove DragMode.resizeEnd 10 5 60 20).2 = some 25 := by
    simp only [handleSegmentDragMove, roundTenth, round_eq]
    norm_num [max_def, min_def]
  exact ⟨h, by rw [h]; simp⟩

/-- C2 amended: the +20 second resize-end drag commits duration 25
(5 + 20, below the clamp bound), and the clamp to 50 = 60 - 10 engages
only for larger deltas, for example +60 seconds. -/
theorem resize_end_scenario_amended :
    (handleSegmentDragMove DragMode.resizeEnd 10 5 60 20).2 = some 25 ∧
    (handleSegmentDragMove DragMode.resizeEnd 10 5 60 60).2 = some 50 := by
  constructor <;>
    · simp only [handleSegmentDragMove, roundTenth, round_eq]
      norm_num [max_def, min_def]

/-! ## Claim C3: the duration-update operation -/

/-- C3 counterexample: handleUpdateSegmentDuration stores the new
duration unchanged.  Updating a segment with timestamp 0 on a 60-second
timeline to duration 100 stores 100, not the claimed clamp
max 1 (min (min 30 (60 - 0)) 100) = 30; in particular the stored value
exceeds 30. -/
theorem update_duration_counterexample :
    (handleUpdateSegmentDuration [⟨"a", 0, 5, "0:00"⟩] "a" 100).map Segment.duration
      = [100] ∧
    (100 : ℚ) ≠ max 1 (min (min 30 (60 - 0)) 100) := by
  constructor
  · simp [handleUpdateSegmentDuration]
  · norm_num

/-- C3 amended: the handler itself performs no clamping — the stored
duration is exactly the newDuration passed, and the segment collection is
otherwise unchanged.  The clamping the spec attributes to the operation
lives at the call sites: the sidebar decrease button never commits below
1 and the increase button never commits above 30 (no call site enforces
timestamp + duration <= totalDuration). -/
theorem update_duration_amended (segments : List Segment) (segmentId : String)
    (newDuration : ℚ) :
    (handleUpdateSegmentDuration segments segmentId newDuration).map Segment.duration
      = segments.map (fun s => if s.id = segmentId then newDuration else s.duration) ∧
    (∀ d, 1 ≤ durationMinusButton d) ∧
    (∀ d, durationPlusButton d ≤ 30) := by
  refine ⟨?_, fun d => le_max_left _ _, fun d => min_le_left _ _⟩
  induction segments with
  | nil => simp [handleUpdateSegmentDuration]
  | cons s t ih =>
    simp only [handleUpdateSegmentDuration, List.map_cons] at ih ⊢
    rw [ih]
    by_cases h : s.id = segmentId <;> simp [h]

/-- C3 amended, witnessed on a one-segment collection: updating to
duration 100 stores exactly 100, and the buttons stay inside [1, 30] at
d = 5. -/
theorem update_duration_amended_witness :
    (handleUpdateSegmentDuration [⟨"a", 0, 5, "0:00"⟩] "a" 100).map Segment.duration
      = [if ("a" : String) = "a" then (100 : ℚ) else 5] ∧
    1 ≤ durationMinusButton 5 ∧ durationPlusButton 5 ≤ 30 := by
  have h := update_duration_amended [⟨"a", 0, 5, "0:00"⟩] "a" 100
  exact ⟨by simpa using h.1, h.2.1 5, h.2.2 5⟩

/-! ## Claim C4: the timestamp-update operation -/

/-- C4 counterexample: handleUpdateSegmentTimestamp stores the new
timestamp unchanged.  Updating a segment with duration 5 on a 60-second
timeline to timestamp -3 stores -3, not the claimed clamp
max 0 (min (60 - 5) (-3)) = 0. -/
theorem update_timestamp_counterexample :
    (handleUpdateSegmentTimestamp [⟨"a", 5, 5, "0:05"⟩] "a" (-3)).map Segment.timestamp
      = [-3] ∧
    (-3 : ℚ) ≠ max 0 (min (60 - 5) (-3)) := by
  constructor
  · simp [handleUpdateSegmentTimestamp, updateTimestampField, List.insertionSort]
  · norm_num

/-- C4 amended: the handler stores newTimestamp without clamping (its
callers pre-clamp), rewrites the formatted-time label of the matching
segment to formatTime newTimestamp, and re-sorts the collection by
timestamp ascending, stably: the output is a permutation of the
field-updated input, it is sorted, every matching segment carries the new
timestamp and label, and the segments of any fixed timestamp keep their
relative input order. -/
theorem update_timestamp_amended (segments : List Segment) (segmentId : String)
    (newTimestamp : ℚ) :
    List.Perm (handleUpdateSegmentTimestamp segments segmentId newTimestamp)
      (segments.map (updateTimestampField segmentId newTimestamp)) ∧
    List.Sorted segLE (handleUpdateSegmentTimestamp segments segmentId newTimestamp) ∧
    (∀ s ∈ handleUpdateSegmentTimestamp segments segmentId newTimestamp,
      s.id = segmentId →
        s.timestamp = newTimestamp ∧ s.formattedTime = formatTime newTimestamp) ∧
    (∀ t : ℚ,
      (handleUpdateSegmentTimestamp segments segmentId newTimestamp).filter
          (fun s => decide (s.timestamp = t))
        = (segments.map (updateTimestampField segmentId newTimestamp)).filter
          (fun s => decide (s.timestamp = t))) := by
  set l := segments.map (updateTimestampField segmentId newTimestamp) with hl
  have hperm : List.Perm (handleUpdateSegmentTimestamp segments segmentId newTimestamp) l :=
    List.perm_insertionSort segLE l
  refine ⟨hperm, List.sorted_insertionSort segLE l, ?_, ?_⟩
  · intro s hs hid
    have hmem : s ∈ l := hperm.mem_iff.mp hs
    rw [hl] at hmem
    obtain ⟨x, hx, hsx⟩ := List.mem_map.mp hmem
    rw [updateTimestampField] at hsx
    by_cases hxid : x.id = segmentId
    · rw [if_pos hxid] at hsx
      rw [← hsx]
      exact ⟨rfl, rfl⟩
    · rw [if_neg hxid] at hsx
      exact absurd (hsx ▸ hid) hxid
  · intro t
    set p : Segment → Bool := fun s => decide (s.timestamp = t) with hp
    have hpair : (l.filter p).Pairwise segLE := by
      apply List.pairwise_of_forall_mem_list
      intro a ha b hb
      have ha2 : a.timestamp = t := by
        have := (List.mem_filter.mp ha).2
        simpa [hp] using this
      have hb2 : b.timestamp = t := by
        have := (List.mem_filter.mp hb).2
        simpa [hp] using this
      show a.timestamp ≤ b.timestamp
      rw [ha2, hb2]
    have hsub : List.Sublist (l.filter p) (List.insertionSort segLE l) :=
      List.sublist_insertionSort hpair (List.filter_sublist l)
    have hsub2 : List.Sublist (l.filter p) ((List.insertionSort segLE l).filter p) := by
      have := hsub.filter p
      simpa [List.filter_filter] using this
    have hlen : ((List.insertionSort segLE l).filter p).length = (l.filter p).length := by
      rw [← List.countP_eq_length_filter, ← List.countP_eq_length_filter]
      exact (List.perm_insertionSort segLE l).countP_eq p
    exact (hsub2.eq_of_length hlen.symm).symm

/-- C4 amended, witnessed on a two-segment collection where the update
moves the first segment past the second: the result is sorted. -/
theorem update_timestamp_amended_witness :
    List.Sorted segLE (handleUpdateSegmentTimestamp [⟨"a", 0, 5, "0:00"⟩, exSeg2] "a" 9) :=
  (update_timestamp_amended [⟨"a", 0, 5, "0:00"⟩, exSeg2] "a" 9).2.1

/-! ## Claim C5: the sort invariant -/

/-- C5: after any non-empty sequence of updateTimestamp calls, the
segment collection is non-decreasing by timestamp: the final call sorts
the collection, so the result is sorted whatever the starting collection
was. -/
theorem sort_invariant (segments : List Segment) (updates : List (String × ℚ))
    (h : updates ≠ []) :
    List.Sorted segLE (updates.foldl
      (fun l u => handleUpdateSegmentTimestamp l u.1 u.2) segments) := by
  induction updates generalizing segments with
  | nil => exact absurd rfl h
  | cons u us ih =>
    rw [List.foldl_cons]
    cases us with
    | nil => exact List.sorted_insertionSort segLE _
    | cons v vs => exact ih _ (by simp)

/-- C5, witnessed on an initially unsorted two-segment collection and a
single update: the result is non-decreasing by timestamp. -/
theorem sort_invariant_witness :
    List.Sorted segLE ([(("b", 3) : String × ℚ)].foldl
      (fun l u => handleUpdateSegmentTimestamp l u.1 u.2)
      [⟨"b", 9, 1, "0:09"⟩, ⟨"c", 2, 1, "0:02"⟩]) :=
  sort_invariant [⟨"b", 9, 1, "0:09"⟩, ⟨"c", 2, 1, "0:02"⟩] [("b", 3)] (by simp)

/-! ## Claim C8: active-segment resolution -/

/-- C8 counterexample: the resolver does not literally use
segment.duration — a stored duration of 0 is replaced by 5
(segment.duration || 5), so a segment with timestamp 0 and duration 0 is
returned at time 2 even though its literal time range [0, 0) contains
nothing. -/
theorem find_active_counterexample :
    findActiveSegment [zeroDurSeg] 2 = some zeroDurSeg ∧
    ¬(zeroDurSeg.timestamp ≤ 2 ∧ (2 : ℚ) < zeroDurSeg.timestamp + zeroDurSeg.duration) := by
  constructor
  · simp [findActiveSegment, effectiveDuration, zeroDurSeg, List.find?]
    norm_num
  · simp [zeroDurSeg]

/-- C8 amended: findActiveSegment returns the first segment in stored
order whose effective time range contains the current time, where the
effective duration substitutes 5 for a stored duration of 0
(segment.duration || 5); it returns none exactly when no effective range
contains the time.  On the scenario segments, time 7 resolves to the
second segment and times 10 and 19 resolve to none. -/
theorem find_active_amended :
    (∀ (segments : List Segment) (time : ℚ),
      (findActiveSegment segments time = none ↔
        ∀ s ∈ segments, ¬(s.timestamp ≤ time ∧ time < s.timestamp + effectiveDuration s)) ∧
      (∀ s, findActiveSegment segments time = some s →
        ∃ l1 l2, segments = l1 ++ s :: l2 ∧
          (s.timestamp ≤ time ∧ time < s.timestamp + effectiveDuration s) ∧
          ∀ b ∈ l1, ¬(b.timestamp ≤ time ∧ time < b.timestamp + effectiveDuration b))) ∧
    (findActiveSegment [exSeg1, exSeg2, exSeg3] 7 = some exSeg2 ∧
     findActiveSegment [exSeg1, exSeg2, exSeg3] 10 = none ∧
     findActiveSegment [exSeg1, exSeg2, exSeg3] 19 = none) := by
  constructor
  · intro segments time
    constructor
    · rw [findActiveSegment, List.find?_eq_none]
      constructor
      · intro h s hs hrange
        have := h s hs
        simp only [Bool.and_eq_true, decide_eq_true_eq] at this
        exact this ⟨hrange.1, hrange.2⟩
      · intro h s hs
        simp only [Bool.and_eq_true, decide_eq_true_eq, not_and]
        intro h1 h2
        exact h s hs ⟨h1, h2⟩
    · intro s hs
      rw [findActiveSegment] at hs
      obtain ⟨l1, l2, hsplit, hpa, hprev⟩ := find?_first _ segments s hs
      refine ⟨l1, l2, hsplit, ?_, ?_⟩
      · simpa only [Bool.and_eq_true, decide_eq_true_eq] using hpa
      · intro b hb hrange
        have := hprev b hb
        simp only [Bool.and_eq_true, decide_eq_true_eq] at this
        rw [Bool.eq_false_iff] at this
        exact this (by simp only [Bool.and_eq_true, decide_eq_true_eq]; exact hrange)
  · refine ⟨?_, ?_, ?_⟩ <;>
      · simp [findActiveSegment, effectiveDuration, exSeg1, exSeg2, exSeg3, List.find?]
        norm_num

/-- C8 amended, witnessed through the general characterization at the gap
time 10 of the scenario: no effective range contains it. -/
theorem find_active_amended_witness :
    findActiveSegment [exSeg1, exSeg2, exSeg3] 10 = none :=
  ((find_active_amended.1 [exSeg1, exSeg2, exSeg3] 10).1).mpr
    (by
      intro s hs
      simp only [List.mem_cons, List.not_mem_nil, or_false] at hs
      rcases hs with rfl | rfl | rfl
      · simp [exSeg1, effectiveDuration]; norm_num
      · simp [exSeg2, effectiveDuration]; norm_num
      · simp [exSeg3, effectiveDuration]; norm_num)

/-! ## Chroma-key helper lemmas -/

/-- Mathlib round is monotone (JS Math.round is floor(x + 1/2), which is
exactly round_eq). -/
theorem round_mono' {α : Type} [LinearOrderedField α] [FloorRing α] {x y : α}
    (h : x ≤ y) : round x ≤ round y := by
  rw [round_eq, round_eq]
  exact Int.floor_mono (by linarith)

/-- The default green key color parses to (0, 255, 0). -/
theorem hexKey_green : hexToRgb "#00FF00" = (0, 255, 0) := by decide

/-- The softness slider value x maps to the softness range x/100*100 = x. -/
theorem div_mul_hundred (x : ℝ) : x / 100 * 100 = x :=
  div_mul_cancel₀ x (by norm_num)

/-- The red channel is copied unchanged by the loop body. -/
theorem applyChromaKeyPixel_r (settings : ChromaKeySettings) (p : Pixel) :
    (applyChromaKeyPixel settings p).r = p.r := rfl

/-- The blue channel is copied unchanged by the loop body. -/
theorem applyChromaKeyPixel_b (settings : ChromaKeySettings) (p : Pixel) :
    (applyChromaKeyPixel settings p).b = p.b := rfl

/-- The alpha the loop body writes is the alpha decision on the distance to
the parsed key color. -/
theorem applyChromaKeyPixel_a (settings : ChromaKeySettings) (p : Pixel) :
    (applyChromaKeyPixel settings p).a =
      chromaAlpha (settings.tolerance / 100 * 255) (settings.edgeSoftness / 100 * 100)
        (colorDistance p.r p.g p.b (hexToRgb settings.keyColor).1
          (hexToRgb settings.keyColor).2.1 (hexToRgb settings.keyColor).2.2) p.a := rfl

/-- The green the loop body writes is the spill suppression on the written
alpha. -/
theorem applyChromaKeyPixel_g (settings : ChromaKeySettings) (p : Pixel) :
    (applyChromaKeyPixel settings p).g =
      spillGreen (settings.spillSuppression / 100) p.r p.g p.b
        (applyChromaKeyPixel settings p).a := rfl

/-- Spill suppression never increases an integer green channel: the
subtracted quantity is positive, so the rounded value stays at or below
the original byte. -/
theorem spillGreen_le (st a : ℝ) (rn gn bn : ℕ) :
    spillGreen st rn gn bn a ≤ (gn : ℝ) := by
  rw [spillGreen]
  split_ifs with h
  · obtain ⟨h1, _, h3⟩ := h
    have hpos : (0:ℝ) < ((gn:ℝ) - max (rn:ℝ) (bn:ℝ)) * st * (7 / 10) :=
      mul_pos (mul_pos h3 h1) (by norm_num)
    have hle : round ((gn:ℝ) - ((gn:ℝ) - max (rn:ℝ) (bn:ℝ)) * st * (7 / 10))
        ≤ round ((gn:ℝ)) := round_mono' (by linarith)
    rw [round_natCast] at hle
    exact_mod_cast hle
  · exact le_refl _

/-- Spill suppression changes the green channel only on a pixel with
positive spill strength, positive written alpha and positive green
excess. -/
theorem spillGreen_eq_or (st a : ℝ) (rn gn bn : ℕ) :
    spillGreen st rn gn bn a = (gn : ℝ) ∨ (0 < st ∧ 0 < a ∧ max rn bn < gn) := by
  rw [spillGreen]
  split_ifs with h
  · refine Or.inr ⟨h.1, h.2.1, ?_⟩
    have h3 := h.2.2
    have : ((max rn bn : ℕ) : ℝ) < (gn : ℝ) := by
      push_cast
      linarith
    exact_mod_cast this
  · exact Or.inl rfl

/-- A list is pointwise related to its image under a map. -/
theorem forall₂_self_map {α β : Type} (r : α → β → Prop) (f : α → β) (l : List α)
    (h : ∀ x ∈ l, r x (f x)) : List.Forall₂ r l (l.map f) := by
  induction l with
  | nil => exact List.Forall₂.nil
  | cons c t ih =>
    exact List.Forall₂.cons (h c (by simp)) (ih fun x hx => h x (by simp [hx]))

/-- The Euclidean distance of (3, 251, 0) to the green key (0, 255, 0) is
exactly 5 (a 3-4-5 triangle). -/
theorem dist_cex : colorDistance ((3:ℕ):ℝ) ((251:ℕ):ℝ) ((0:ℕ):ℝ)
    ((0:ℕ):ℝ) ((255:ℕ):ℝ) ((0:ℕ):ℝ) = 5 := by
  rw [colorDistance]
  push_cast
  rw [show ((3:ℝ) - 0) ^ 2 + ((251:ℝ) - 255) ^ 2 + ((0:ℝ) - 0) ^ 2 = 5 ^ 2 by norm_num]
  exact Real.sqrt_sq (by norm_num)

/-- With tolerance 0 and edge softness 0 no branch of the alpha decision
fires, so the alpha byte is left unchanged. -/
theorem chroma_tol_zero_soft_zero (settings : ChromaKeySettings) (p : Pixel)
    (ht : settings.tolerance = 0) (hs : settings.edgeSoftness = 0) :
    (applyChromaKeyPixel settings p).a = (p.a : ℝ) := by
  rw [applyChromaKeyPixel]
  dsimp only
  rw [ht, hs, chromaAlpha]
  have hd : (0:ℝ) ≤ colorDistance ↑p.r ↑p.g ↑p.b ↑(hexToRgb settings.keyColor).1
      ↑(hexToRgb settings.keyColor).2.1 ↑(hexToRgb settings.keyColor).2.2 := by
    rw [colorDistance]
    exact Real.sqrt_nonneg _
  rw [if_neg (by norm_num; linarith), if_neg (by norm_num)]

/-- With tolerance 100 (threshold 255) and any softness in [0, 100], the
white pixel is out of both bands (its key distance is at least 355), so
its alpha 255 is kept. -/
theorem chroma_white_opaque (settings : ChromaKeySettings)
    (hk : settings.keyColor = "#00FF00") (ht : settings.tolerance = 100)
    (hs0 : 0 ≤ settings.edgeSoftness) (hs1 : settings.edgeSoftness ≤ 100) :
    (applyChromaKeyPixel settings ⟨255, 255, 255, 255⟩).a = ((255:ℕ):ℝ) := by
  rw [applyChromaKeyPixel]
  dsimp only
  rw [hk, ht, hexKey_green]
  dsimp only
  have hd : (355:ℝ) ≤ colorDistance (255:ℝ) 255 255 0 255 0 := by
    rw [colorDistance]
    rw [show ((255:ℝ) - 0) ^ 2 + ((255:ℝ) - 255) ^ 2 + ((255:ℝ) - 0) ^ 2 = 130050 by
      norm_num]
    rw [Real.le_sqrt (by norm_num) (by norm_num)]
    norm_num
  rw [chromaAlpha]
  rw [if_neg, if_neg]
  · rintro ⟨hb, hc⟩
    rw [div_mul_hundred] at hb hc
    norm_num at hc
    linarith
  · intro hb
    norm_num at hb
    linarith

/-! ## Claim C6: the keyed-band alpha formula -/

/-- C6 counterexample: with edge softness 0 the formula of the claim does
not apply.  With tolerance 100 (threshold 255), softness 0 and key
\x23 00FF00, the pixel (3, 251, 0) is inside the threshold at distance 5;
the claimed formula evaluates to 5, but the code writes alpha 0. -/
theorem chroma_alpha_formula_counterexample :
    colorDistance ((3:ℕ):ℝ) ((251:ℕ):ℝ) ((0:ℕ):ℝ) ((0:ℕ):ℝ) ((255:ℕ):ℝ) ((0:ℕ):ℝ)
      < 100 / 100 * 255 ∧
    min 255 (max 0 (colorDistance ((3:ℕ):ℝ) ((251:ℕ):ℝ) ((0:ℕ):ℝ) ((0:ℕ):ℝ)
      ((255:ℕ):ℝ) ((0:ℕ):ℝ) / (100 / 100 * 255) * 255 * (1 + 0 / 100 * 100 / 50))) = 5 ∧
    (applyChromaKeyPixel ⟨true, "#00FF00", 100, 0, 0⟩ ⟨3, 251, 0, 255⟩).a = 0 ∧
    (0:ℝ) ≠ 5 := by
  refine ⟨by rw [dist_cex]; norm_num, by rw [dist_cex]; norm_num, ?_, by norm_num⟩
  rw [applyChromaKeyPixel]
  dsimp only
  rw [hexKey_green]
  dsimp only
  rw [chromaAlpha]
  rw [if_pos, if_neg]
  · norm_num
  · rw [dist_cex]
    norm_num

/-- C6 amended: for an enabled settings object, applyChromaKey applies the
loop body to every pixel, and a pixel strictly inside the tolerance
threshold receives the claimed alpha
min(255, max(0, distance/threshold * 255 * (1 + softnessRange/50))) when
the softness range is positive, and alpha 0 when the softness range is
zero. -/
theorem chroma_alpha_formula_amended (settings : ChromaKeySettings) (p : Pixel)
    (data : List Pixel) (henabled : settings.enabled = true)
    (hd : colorDistance ↑p.r ↑p.g ↑p.b ↑(hexToRgb settings.keyColor).1
        ↑(hexToRgb settings.keyColor).2.1 ↑(hexToRgb settings.keyColor).2.2
      < settings.tolerance / 100 * 255) :
    applyChromaKey settings data = data.map (applyChromaKeyPixel settings) ∧
    (applyChromaKeyPixel settings p).a =
      (if 0 < settings.edgeSoftness / 100 * 100 then
        min 255 (max 0 (colorDistance ↑p.r ↑p.g ↑p.b ↑(hexToRgb settings.keyColor).1
            ↑(hexToRgb settings.keyColor).2.1 ↑(hexToRgb settings.keyColor).2.2
          / (settings.tolerance / 100 * 255) * 255
          * (1 + settings.edgeSoftness / 100 * 100 / 50)))
      else 0) := by
  constructor
  · rw [applyChromaKey, if_pos henabled]
  · rw [applyChromaKeyPixel]
    dsimp only
    rw [chromaAlpha, if_pos hd]

/-- C6 amended, witnessed at tolerance 100, softness 50 and the pixel
(3, 251, 0): the formula branch fires. -/
theorem chroma_alpha_formula_amended_witness :
    applyChromaKey ⟨true, "#00FF00", 100, 0, 50⟩ [⟨3, 251, 0, 255⟩]
      = [⟨3, 251, 0, 255⟩].map (applyChromaKeyPixel ⟨true, "#00FF00", 100, 0, 50⟩) ∧
    (applyChromaKeyPixel ⟨true, "#00FF00", 100, 0, 50⟩ ⟨3, 251, 0, 255⟩).a =
      (if 0 < (⟨true, "#00FF00", 100, 0, 50⟩ : ChromaKeySettings).edgeSoftness / 100 * 100 then
        min 255 (max 0 (colorDistance ((3:ℕ):ℝ) ((251:ℕ):ℝ) ((0:ℕ):ℝ)
            ((0:ℕ):ℝ) ((255:ℕ):ℝ) ((0:ℕ):ℝ)
          / ((100:ℝ) / 100 * 255) * 255 * (1 + (50:ℝ) / 100 * 100 / 50)))
      else 0) := by
  have h := chroma_alpha_formula_amended ⟨true, "#00FF00", 100, 0, 50⟩ ⟨3, 251, 0, 255⟩
    [⟨3, 251, 0, 255⟩] rfl
    (by
      dsimp only
      rw [hexKey_green]
      dsimp only
      rw [dist_cex]
      norm_num)
  refine ⟨h.1, ?_⟩
  have h2 := h.2
  dsimp only at h2
  rw [hexKey_green] at h2
  exact h2

/-! ## Claim C7: the tolerance boundary cases -/

/-- C7 counterexample: with tolerance 0 but edge softness 50, the pure key
pixel (0, 255, 0) is NOT left unchanged: the feathering band
(distance < 0 + softnessRange) fires at distance 0 and writes alpha
round(0/50 * 255) = 0, replacing the previous alpha 255. -/
theorem chroma_tol_zero_counterexample :
    (applyChromaKeyPixel ⟨true, "#00FF00", 0, 0, 50⟩ ⟨0, 255, 0, 255⟩).a = 0 ∧
    (applyChromaKeyPixel ⟨true, "#00FF00", 0, 0, 50⟩ ⟨0, 255, 0, 255⟩).a
      ≠ (((⟨0, 255, 0, 255⟩ : Pixel).a : ℕ) : ℝ) := by
  have ha : (applyChromaKeyPixel ⟨true, "#00FF00", 0, 0, 50⟩ ⟨0, 255, 0, 255⟩).a
      = chromaAlpha (0 / 100 * 255) (50 / 100 * 100)
          (colorDistance ((0:ℕ):ℝ) ((255:ℕ):ℝ) ((0:ℕ):ℝ) ((0:ℕ):ℝ) ((255:ℕ):ℝ)
            ((0:ℕ):ℝ)) ((255:ℕ):ℝ) := by
    rw [applyChromaKeyPixel]
    dsimp only
    rw [hexKey_green]
  have hd : colorDistance ((0:ℕ):ℝ) ((255:ℕ):ℝ) ((0:ℕ):ℝ) ((0:ℕ):ℝ) ((255:ℕ):ℝ)
      ((0:ℕ):ℝ) = 0 := by
    rw [colorDistance]
    push_cast
    rw [show ((0:ℝ) - 0) ^ 2 + ((255:ℝ) - 255) ^ 2 + ((0:ℝ) - 0) ^ 2 = 0 by norm_num]
    exact Real.sqrt_zero
  have h0 : (applyChromaKeyPixel ⟨true, "#00FF00", 0, 0, 50⟩ ⟨0, 255, 0, 255⟩).a = 0 := by
    rw [ha, chromaAlpha, hd]
    rw [if_neg (by norm_num), if_pos (by norm_num)]
    norm_num
  refine ⟨h0, ?_⟩
  rw [h0]
  dsimp only
  norm_num

/-- C7 amended: the tolerance-0 case keys nothing only when the edge
softness is also 0 (the feathering band can still key pixels otherwise);
and with tolerance 100 and any edge softness in [0, 100], the white
pixel (255, 255, 255) at key distance about 360.6 stays outside both
bands and keeps its alpha 255. -/
theorem chroma_boundary_amended :
    (∀ (settings : ChromaKeySettings) (p : Pixel),
      settings.tolerance = 0 → settings.edgeSoftness = 0 →
        (applyChromaKeyPixel settings p).a = (p.a : ℝ)) ∧
    (∀ settings : ChromaKeySettings,
      settings.keyColor = "#00FF00" → settings.tolerance = 100 →
      0 ≤ settings.edgeSoftness → settings.edgeSoftness ≤ 100 →
        (applyChromaKeyPixel settings ⟨255, 255, 255, 255⟩).a = ((255:ℕ):ℝ)) :=
  ⟨chroma_tol_zero_soft_zero, chroma_white_opaque⟩

/-- C7 amended, witnessed at concrete settings for both parts: with
tolerance 0 and softness 0 the alpha 40 is kept; with tolerance 100 and
softness 100 the white pixel keeps alpha 255. -/
theorem chroma_boundary_amended_witness :
    (applyChromaKeyPixel ⟨true, "#00FF00", 0, 0, 0⟩ ⟨10, 20, 30, 40⟩).a = ((40:ℕ):ℝ) ∧
    (applyChromaKeyPixel ⟨true, "#00FF00", 100, 0, 100⟩ ⟨255, 255, 255, 255⟩).a
      = ((255:ℕ):ℝ) :=
  ⟨chroma_boundary_amended.1 ⟨true, "#00FF00", 0, 0, 0⟩ ⟨10, 20, 30, 40⟩ rfl rfl,
   chroma_boundary_amended.2 ⟨true, "#00FF00", 100, 0, 100⟩ rfl rfl
     (by norm_num) (by norm_num)⟩

/-! ## Claim C10: channel discipline of applyChromaKey -/

/-- C10: on every buffer and settings, each output pixel keeps the red and
blue bytes exactly, the green never increases, and the green changes at
all only under active spill suppression on a pixel with positive written
alpha and positive green excess; the only other written channel is
alpha. -/
theorem chroma_channel_effect (settings : ChromaKeySettings) (data : List Pixel) :
    List.Forall₂ (fun p q => q.r = p.r ∧ q.b = p.b ∧ q.g ≤ (p.g : ℝ) ∧
      (q.g = (p.g : ℝ) ∨ (0 < settings.spillSuppression ∧ 0 < q.a ∧ max p.r p.b < p.g)))
      data (applyChromaKey settings data) := by
  rw [applyChromaKey]
  split_ifs with he
  · apply forall₂_self_map
    intro p _
    refine ⟨applyChromaKeyPixel_r settings p, applyChromaKeyPixel_b settings p, ?_, ?_⟩
    · rw [applyChromaKeyPixel_g]
      exact spillGreen_le _ _ _ _ _
    · rw [applyChromaKeyPixel_g]
      rcases spillGreen_eq_or (settings.spillSuppression / 100)
          (applyChromaKeyPixel settings p).a p.r p.g p.b with h | ⟨h1, h2, h3⟩
      · exact Or.inl h
      · exact Or.inr ⟨by linarith, h2, h3⟩
  · apply forall₂_self_map
    intro p _
    exact ⟨rfl, rfl, le_refl _, Or.inl rfl⟩

/-! ## Claim C9: the hex color round trip -/

set_option maxRecDepth 8000 in
/-- Each byte below 256 renders as exactly the two lowercase hex digit
characters of its two base-16 digits. -/
theorem componentToHex_data : ∀ x < 256, (componentToHex x).data
    = [Nat.digitChar (x / 16), Nat.digitChar (x % 16)] := by decide

/-- The sixteen digit characters are accepted by the hex pattern and parse
back to their value. -/
theorem hexDigitChar_spec : ∀ d < 16, isHexDigitChar (Nat.digitChar d) = true
    ∧ hexDigitVal (Nat.digitChar d) = d := by decide

/-- C9: the color round trip: parsing the rendered hex string of any byte
triple returns the same triple. -/
theorem hex_round_trip (r g b : ℕ) (hr : r ≤ 255) (hg : g ≤ 255) (hb : b ≤ 255) :
    hexToRgb (rgbToHex r g b) = (r, g, b) := by
  have hdr := componentToHex_data r (by omega)
  have hdg := componentToHex_data g (by omega)
  have hdb := componentToHex_data b (by omega)
  have hdata : (rgbToHex r g b).data =
      ['#', Nat.digitChar (r / 16), Nat.digitChar (r % 16), Nat.digitChar (g / 16),
        Nat.digitChar (g % 16), Nat.digitChar (b / 16), Nat.digitChar (b % 16)] := by
    simp [rgbToHex, String.join, String.data_append, hdr, hdg, hdb]
  have hstr : rgbToHex r g b = String.mk ['#', Nat.digitChar (r / 16),
      Nat.digitChar (r % 16), Nat.digitChar (g / 16), Nat.digitChar (g % 16),
      Nat.digitChar (b / 16), Nat.digitChar (b % 16)] := by
    cases hs : rgbToHex r g b with
    | mk d => rw [hs] at hdata; simp at hdata; rw [hdata]
  have e1 := hexDigitChar_spec (r / 16) (by omega)
  have e2 := hexDigitChar_spec (r % 16) (by omega)
  have e3 := hexDigitChar_spec (g / 16) (by omega)
  have e4 := hexDigitChar_spec (g % 16) (by omega)
  have e5 := hexDigitChar_spec (b / 16) (by omega)
  have e6 := hexDigitChar_spec (b % 16) (by omega)
  rw [hstr]
  simp [hexToRgb, e1.1, e2.1, e3.1, e4.1, e5.1, e6.1, e1.2, e2.2, e3.2, e4.2, e5.2, e6.2]
  omega

/-- C9, witnessed at the triple (18, 52, 86), whose hex string is
\x23 123456. -/
theorem hex_round_trip_witness : hexToRgb (rgbToHex 18 52 86) = (18, 52, 86) :=
  hex_round_trip 18 52 86 (by norm_num) (by norm_num) (by norm_num)

end AiAnimator

